import Mathlib

set_option maxRecDepth 100000

/-!
Verification of the `flight` query-serving repository.

The development shallowly embeds the core job dispatch / result-cache
subsystem of the server package `flight_server/flight_server`:

* `s3_utils.hash_query` / `s3_key_for_query` (content fingerprinting),
  including an executable SHA-256 so that fingerprints are computed, not
  stubbed;
* `job_registry.JobRegistry` (the sqlite-backed registry) as a pure state
  type `Registry` with `insert_job`, `update_job_status`, `get_job`;
* `routes/query.submit_query`, `get_query_status`, `get_query_result`;
* `query_runner.run_query` (worker body), with the analytic engine and
  the object store abstracted to outcome parameters / a set of keys;
* `main.lifespan` (startup hook);
* a small-step system relation `Step` / `Reachable` tying the pieces
  together, over which the registry invariants are proved.
-/

/-! ## SHA-256 over byte lists (used by `hash_query`) -/

namespace SHA256

/-- Truncate to a 32-bit word. -/
def wmask (x : Nat) : Nat := x % 4294967296

/-- Addition modulo 2^32. -/
def add32 (a b : Nat) : Nat := wmask (a + b)

/-- Right rotation of a 32-bit word. -/
def rotr (n x : Nat) : Nat := wmask ((x >>> n) ||| (x <<< (32 - n)))

/-- Logical right shift. -/
def shr (n x : Nat) : Nat := x >>> n

/-- Bitwise complement on 32 bits. -/
def not32 (x : Nat) : Nat := x ^^^ 4294967295

def ch (x y z : Nat) : Nat := (x &&& y) ^^^ (not32 x &&& z)

def maj (x y z : Nat) : Nat := (x &&& y) ^^^ (x &&& z) ^^^ (y &&& z)

def bigSigma0 (x : Nat) : Nat := rotr 2 x ^^^ rotr 13 x ^^^ rotr 22 x

def bigSigma1 (x : Nat) : Nat := rotr 6 x ^^^ rotr 11 x ^^^ rotr 25 x

def smallSigma0 (x : Nat) : Nat := rotr 7 x ^^^ rotr 18 x ^^^ shr 3 x

def smallSigma1 (x : Nat) : Nat := rotr 17 x ^^^ rotr 19 x ^^^ shr 10 x

/-- The 64 round constants (fractional parts of cube roots of the first 64
primes). -/
def K : List Nat :=
  [1116352408, 1899447441, 3049323471, 3921009573,
   961987163, 1508970993, 2453635748, 2870763221,
   3624381080, 310598401, 607225278, 1426881987,
   1925078388, 2162078206, 2614888103, 3248222580,
   3835390401, 4022224774, 264347078, 604807628,
   770255983, 1249150122, 1555081692, 1996064986,
   2554220882, 2821834349, 2952996808, 3210313671,
   3336571891, 3584528711, 113926993, 338241895,
   666307205, 773529912, 1294757372, 1396182291,
   1695183700, 1986661051, 2177026350, 2456956037,
   2730485921, 2820302411, 3259730800, 3345764771,
   3516065817, 3600352804, 4094571909, 275423344,
   430227734, 506948616, 659060556, 883997877,
   958139571, 1322822218, 1537002063, 1747873779,
   1955562222, 2024104815, 2227730452, 2361852424,
   2428436474, 2756734187, 3204031479, 3329325298]

/-- Initial hash state (fractional parts of square roots of the first 8
primes). -/
def H0 : List Nat :=
  [1779033703, 3144134277, 1013904242, 2773480762,
   1359893119, 2600822924, 528734635, 1541459225]

/-- Big-endian 32-bit words from a byte list. -/
def toWords : List Nat → List Nat
  | b0 :: b1 :: b2 :: b3 :: rest =>
      ((((b0 <<< 8) ||| b1) <<< 8 ||| b2) <<< 8 ||| b3) :: toWords rest
  | _ => []

/-- Extend the 16-word message schedule by `n` further words. -/
def extendSchedule : List Nat → Nat → List Nat
  | w, 0 => w
  | w, n + 1 =>
      let t := w.length
      let get := fun (i : Nat) => w.getD i 0
      extendSchedule
        (w ++ [add32 (add32 (smallSigma1 (get (t - 2))) (get (t - 7)))
                     (add32 (smallSigma0 (get (t - 15))) (get (t - 16)))]) n

/-- One compression round on the register file `[a,b,c,d,e,f,g,h]`. -/
def round (regs : List Nat) (kw : Nat × Nat) : List Nat :=
  match regs with
  | [a, b, c, d, e, f, g, h] =>
      let t1 := add32 (add32 h (bigSigma1 e)) (add32 (ch e f g) (add32 kw.1 kw.2))
      let t2 := add32 (bigSigma0 a) (maj a b c)
      [add32 t1 t2, a, b, c, add32 d t1, e, f, g]
  | l => l

/-- Compress one 64-byte block into the running hash state. -/
def compressBlock (h : List Nat) (block : List Nat) : List Nat :=
  let w := extendSchedule (toWords block) 48
  let regs := (K.zip w).foldl round h
  (h.zip regs).map fun p => add32 p.1 p.2

/-- Split into 64-byte chunks (fuel-driven so the kernel can evaluate it). -/
def chunk64 : Nat → List Nat → List (List Nat)
  | _, [] => []
  | 0, _ => []
  | fuel + 1, l => l.take 64 :: chunk64 fuel (l.drop 64)

/-- Big-endian 8-byte rendering of the bit length. -/
def lenBytes (bitLen : Nat) : List Nat :=
  [(bitLen >>> 56) % 256, (bitLen >>> 48) % 256, (bitLen >>> 40) % 256,
   (bitLen >>> 32) % 256, (bitLen >>> 24) % 256, (bitLen >>> 16) % 256,
   (bitLen >>> 8) % 256, bitLen % 256]

/-- SHA-256 padding: `0x80`, zeros to 56 mod 64, then the 64-bit length. -/
def padMessage (msg : List Nat) : List Nat :=
  let len := msg.length
  msg ++ [0x80] ++ List.replicate ((119 - len % 64) % 64) 0 ++ lenBytes (8 * len)

/-- Four big-endian bytes of a 32-bit word. -/
def wordBytes (w : Nat) : List Nat :=
  [(w >>> 24) % 256, (w >>> 16) % 256, (w >>> 8) % 256, w % 256]

/-- The SHA-256 digest (32 bytes) of a byte list. -/
def sha256 (msg : List Nat) : List Nat :=
  let p := padMessage msg
  let hs := (chunk64 p.length p).foldl compressBlock H0
  ((hs.map wordBytes).flatten)

/-- Lowercase hex digit. -/
def hexDigit (n : Nat) : Char :=
  if n < 10 then Char.ofNat (48 + n) else Char.ofNat (87 + n)

/-- Two lowercase hex digits of one byte. -/
def byteHex (b : Nat) : List Char := [hexDigit (b / 16), hexDigit (b % 16)]

/-- Lowercase-hex rendering of the SHA-256 digest. -/
def sha256hex (msg : List Nat) : String :=
  String.mk (((sha256 msg).map byteHex).flatten)

end SHA256

/-! ## UTF-8 encoding and Python string trimming -/

/-- Encode one code point to UTF-8 bytes (as Python `str.encode()` does). -/
def utf8Char (c : Char) : List Nat :=
  let n := c.toNat
  if n < 128 then [n]
  else if n < 2048 then [192 ||| (n >>> 6), 128 ||| (n &&& 63)]
  else if n < 65536 then
    [224 ||| (n >>> 12), 128 ||| ((n >>> 6) &&& 63), 128 ||| (n &&& 63)]
  else
    [240 ||| (n >>> 18), 128 ||| ((n >>> 12) &&& 63),
     128 ||| ((n >>> 6) &&& 63), 128 ||| (n &&& 63)]

/-- Encode a string to UTF-8 bytes (Python `s.encode()`). -/
def utf8 (s : String) : List Nat := (s.data.map utf8Char).flatten

/-- Python `str.isspace` / the whitespace set stripped by `str.strip()`:
Unicode whitespace, not only ASCII (U+0009..U+000D, U+001C..U+001F, space,
U+0085, U+00A0, U+1680, U+2000..U+200A, U+2028, U+2029, U+202F, U+205F,
U+3000). -/
def pyIsSpace (c : Char) : Bool :=
  let n := c.toNat
  decide ((9 ≤ n ∧ n ≤ 13) ∨ (28 ≤ n ∧ n ≤ 31) ∨ n = 32 ∨ n = 133 ∨
    n = 160 ∨ n = 5760 ∨ (8192 ≤ n ∧ n ≤ 8202) ∨ n = 8232 ∨ n = 8233 ∨
    n = 8239 ∨ n = 8287 ∨ n = 12288)

/-- Python `str.strip()` with no arguments: drop leading and trailing
Unicode whitespace. -/
def pythonStrip (s : String) : String :=
  String.mk (((s.data.dropWhile pyIsSpace).reverse.dropWhile pyIsSpace).reverse)

/-- ASCII whitespace only (tab, LF, VT, FF, CR, space) — the trimming the
spec's words describe. -/
def asciiIsSpace (c : Char) : Bool :=
  let n := c.toNat
  decide ((9 ≤ n ∧ n ≤ 13) ∨ n = 32)

/-- Trim ASCII whitespace from both ends — the fingerprint normalization as
the spec states it. -/
def asciiStrip (s : String) : String :=
  String.mk (((s.data.dropWhile asciiIsSpace).reverse.dropWhile asciiIsSpace).reverse)

/-! ## Fingerprinting (`s3_utils.py`) -/

/-- Embedding of `s3_utils.hash_query` (identical to `JobRegistry.hash_query`):
`hashlib.sha256(query.encode()).hexdigest()` — SHA-256 of the UTF-8 bytes,
rendered as lowercase hex.  No trimming happens here; the caller trims. -/
def hash_query (query : String) : String := SHA256.sha256hex (utf8 query)

/-- Default of the `FLIGHT_S3_BUCKET` environment variable. -/
def S3_BUCKET : String := "flight-cache"

/-- Embedding of `s3_utils.s3_key_for_query`: `f"{S3_BUCKET}/{hash_query(query)}.{ext}"`. -/
def s3_key_for_query (query ext : String) : String :=
  S3_BUCKET ++ "/" ++ hash_query query ++ "." ++ ext

/-- The fingerprint of a submission as `routes/query.submit_query` computes
it: `sql = req.sql.strip()` followed by `hash_query(sql)`. -/
def fingerprint (sqlRaw : String) : String := hash_query (pythonStrip sqlRaw)

/-- The fingerprint as the spec's words describe it: lowercase-hex SHA-256
of the UTF-8 bytes of the query with ASCII whitespace trimmed from both
ends. -/
def fingerprintSpec (sqlRaw : String) : String := hash_query (asciiStrip sqlRaw)

/-! ## The job registry (`flight_server/job_registry.py`)

A row of the `jobs` table and a row of the `queries` table, and the
registry operations as pure state transformers.  `created_at`/
`completed_at` timestamps (`datetime.utcnow()`) are modelled as a `Nat`
supplied by the caller. -/

/-- One row of the `jobs` table. -/
structure JobRow where
  job_id : String
  query_hash : String
  status : String
  format : String
  created_at : Nat
  completed_at : Option Nat
  row_count : Option Nat
  file_size : Option Nat
  s3_key : String
deriving DecidableEq, Repr

/-- One row of the `queries` table. -/
structure QueryRow where
  query_hash : String
  sql : String
  created_at : Nat
deriving DecidableEq, Repr

/-- The registry state: the two sqlite tables. -/
structure Registry where
  queries : List QueryRow
  jobs : List JobRow
deriving DecidableEq, Repr

/-- Embedding of `JobRegistry.insert_job(job_id, format, sql, s3_key)`: `INSERT OR
IGNORE` of the query row, then insert of a `'pending'` job row.  The
`job_id` is a fresh UUID at every call site; the primary-key constraint is
captured by a freshness hypothesis on the system step. -/
def Registry.insert_job (reg : Registry) (job_id forma sql s3_key : String)
    (now : Nat) : Registry :=
  let query_hash := hash_query sql
  let queries :=
    if reg.queries.any (fun q => q.query_hash == query_hash) then reg.queries
    else reg.queries ++ [⟨query_hash, sql, now⟩]
  { queries := queries,
    jobs := reg.jobs ++
      [⟨job_id, query_hash, "pending", forma, now, none, none, none, s3_key⟩] }

/-- Embedding of `JobRegistry.update_job_status(job_id, status, row_count, file_size)`:
`UPDATE jobs SET status = ?, completed_at = ?, row_count = ?, file_size = ?
WHERE job_id = ?` — an unconditional overwrite of every row with the given
`job_id`; there is no `from_state` comparison and no return value. -/
def Registry.update_job_status (reg : Registry) (job_id status : String)
    (row_count file_size : Option Nat) (now : Nat) : Registry :=
  { reg with
    jobs := reg.jobs.map fun j =>
      if j.job_id == job_id then
        { j with status := status, completed_at := some now,
                 row_count := row_count, file_size := file_size }
      else j }

/-- Embedding of `JobRegistry.get_job(job_id)`: `SELECT j.*, q.sql FROM jobs j JOIN
queries q ON j.query_hash = q.query_hash WHERE j.job_id = ?` — the job row
together with the joined SQL text, or `none` when either side is absent. -/
def Registry.get_job (reg : Registry) (job_id : String) :
    Option (JobRow × String) :=
  match reg.jobs.find? (fun j => j.job_id == job_id) with
  | none => none
  | some j =>
    match reg.queries.find? (fun q => q.query_hash == j.query_hash) with
    | none => none
    | some q => some (j, q.sql)

/-! ## The worker body (`query_runner.run_query`) -/

/-- Outcome of one worker execution.  `success rows` stands for the duckdb
execution and the S3 upload both completing (with `rows` total result
rows); `execFail` for an exception raised by the engine before the upload;
`uploadFail` for an exception raised by `save_arrow_stream_to_s3` (which
buffers the whole stream before its single `upload_fileobj` call, so a
failure publishes no object). -/
inductive RunOutcome where
  | success (rows : Nat)
  | execFail
  | uploadFail
deriving DecidableEq, Repr

/-- Result of `run_query`: the updated registry, the object-store key set,
and whether the function raised to its caller (`raise e`). -/
structure RunResult where
  reg : Registry
  store : List String
  raised : Bool
deriving DecidableEq, Repr

/-- Embedding of `query_runner.run_query(sql, job_id, registry)`: execute the query,
stream the result to S3 at `s3_key_for_query(sql, "arrow")`, then
`update_job_status(job_id, "ready")` (with default `row_count=None,
file_size=None`); on any exception, `update_job_status(job_id, "error")`
and then `raise e`. -/
def run_query (sql job_id : String) (now : Nat) (outcome : RunOutcome)
    (reg : Registry) (store : List String) : RunResult :=
  match outcome with
  | .success _ =>
      let key := s3_key_for_query sql "arrow"
      { reg := reg.update_job_status job_id "ready" none none now,
        store := if store.contains key then store else store ++ [key],
        raised := false }
  | .execFail =>
      { reg := reg.update_job_status job_id "error" none none now,
        store := store, raised := true }
  | .uploadFail =>
      { reg := reg.update_job_status job_id "error" none none now,
        store := store, raised := true }

/-! ## The HTTP handlers (`routes/query.py`) -/

/-- What `submit_query` sends back: either a `QueryStatusResponse`, or the
`AttributeError` the handler raises when the cache check finds a row
(`job.status` is attribute access on a `dict`). -/
inductive SubmitResponse where
  | response (status forma job_id : String)
  | attributeError
deriving DecidableEq, Repr

/-- A work item handed to the `ThreadPoolExecutor`
(`loop.run_in_executor(executor, run_query, sql, job_id, registry)`). -/
structure WorkItem where
  sql : String
  job_id : String
deriving DecidableEq, Repr

/-- Result of the submit handler: the HTTP response, the updated registry
and the work items enqueued to the pool (zero or one). -/
structure SubmitResult where
  res : SubmitResponse
  reg : Registry
  enq : List WorkItem
deriving DecidableEq, Repr

/-- Embedding of `routes/query.submit_query(req)`: trim the SQL, compute the hash, then
`job = registry.get_job(query_hash)` — a lookup of the *fingerprint* in
the `job_id` column.  If a row comes back, `job and job.status == "ready"`
performs attribute access on a `dict` and raises `AttributeError` (no
state change); otherwise a fresh `'pending'` job is inserted and
`run_query` is enqueued. -/
def submit_query (sqlRaw newJobId : String) (now : Nat) (reg : Registry) :
    SubmitResult :=
  let sql := pythonStrip sqlRaw
  let query_hash := hash_query sql
  let key_arrow := s3_key_for_query sql "arrow"
  match reg.get_job query_hash with
  | some _ => { res := .attributeError, reg := reg, enq := [] }
  | none =>
      { res := .response "pending" "arrow" newJobId,
        reg := reg.insert_job newJobId "arrow" sql key_arrow now,
        enq := [⟨sql, newJobId⟩] }

/-- Response of the status endpoint `GET /query/{job_id}`. -/
inductive StatusResponse where
  | notFound404
  | ok (status forma job_id : String)
deriving DecidableEq, Repr

/-- Embedding of `routes/query.get_query_status(job_id)`: 404 when `get_job` finds
nothing, else the job's status and format. -/
def get_query_status (reg : Registry) (job_id : String) : StatusResponse :=
  match reg.get_job job_id with
  | none => .notFound404
  | some (j, _) => .ok j.status j.format job_id

/-- Response of the result endpoint `GET /query/{job_id}/result`. -/
inductive ResultResponse where
  | notFound404
  | notReady400
  | stream (key : String)
deriving DecidableEq, Repr

/-- Embedding of `routes/query.get_query_result(job_id)`: 404 for an unknown job, 400
when the job's status is not `"ready"`, otherwise a `StreamingResponse` of
the S3 object at `s3_key_for_query(job["sql"], "arrow")`. -/
def get_query_result (reg : Registry) (job_id : String) : ResultResponse :=
  match reg.get_job job_id with
  | none => .notFound404
  | some (j, sql) =>
      if j.status == "ready" then .stream (s3_key_for_query sql "arrow")
      else .notReady400

/-! ## Startup (`main.lifespan`) -/

/-- Embedding of `main.lifespan(app)` on startup: it constructs the
`ThreadPoolExecutor` and the `JobRegistry` (whose `_init_schema` only runs
`CREATE TABLE IF NOT EXISTS` / `CREATE INDEX IF NOT EXISTS`).  No row of
either table is read or written: the registry contents are untouched. -/
def lifespan_startup (reg : Registry) : Registry := reg

/-! ## The system transition relation

One server: the registry, the object store (the set of keys present in
the bucket) and the executor queue.  Steps are the mutating entry points:
a submit request, one pooled worker finishing a work item (with a
nondeterministic outcome), and a process restart (the executor and its
queue are gone; `lifespan` re-runs). -/

/-- Whole-system state. -/
structure SysState where
  reg : Registry
  store : List String
  queue : List WorkItem
deriving DecidableEq, Repr

/-- The initial system: empty tables, empty bucket, empty pool. -/
def initState : SysState := ⟨⟨[], []⟩, [], []⟩

/-- Effect of a submit request on the system. -/
def submitStep (sqlRaw newJobId : String) (now : Nat) (s : SysState) :
    SysState :=
  let out := submit_query sqlRaw newJobId now s.reg
  ⟨out.reg, s.store, s.queue ++ out.enq⟩

/-- Effect of one worker completing the work item `it` on the system. -/
def runStep (it : WorkItem) (now : Nat) (outcome : RunOutcome)
    (s : SysState) (rest : List WorkItem) : SysState :=
  let out := run_query it.sql it.job_id now outcome s.reg s.store
  ⟨out.reg, out.store, rest⟩

/-- Effect of a restart: durable registry and bucket survive, the
in-process queue does not; `lifespan` runs on the way back up. -/
def restartStep (s : SysState) : SysState :=
  ⟨lifespan_startup s.reg, s.store, []⟩

/-- Small-step relation over the system.  The `submit` step carries the
freshness of the generated `uuid4` handle (which also backs the `job_id`
primary-key constraint); the `run` step removes an arbitrary item of the
queue, since up to `FLIGHT_MAX_WORKERS` items execute concurrently and may
finish in any order. -/
inductive Step : SysState → SysState → Prop where
  | submit (s : SysState) (sqlRaw newJobId : String) (now : Nat)
      (hfresh : ∀ j ∈ s.reg.jobs, j.job_id ≠ newJobId) :
      Step s (submitStep sqlRaw newJobId now s)
  | run (s : SysState) (it : WorkItem) (pre post : List WorkItem)
      (now : Nat) (outcome : RunOutcome)
      (hq : s.queue = pre ++ it :: post) :
      Step s (runStep it now outcome s (pre ++ post))
  | restart (s : SysState) : Step s (restartStep s)

/-- States reachable from the initial system. -/
inductive Reachable : SysState → Prop where
  | init : Reachable initState
  | step {s t : SysState} : Reachable s → Step s t → Reachable t

/-! ## The system invariant -/

/-- Statuses that ever reach the `jobs` table. -/
def storedStatus (st : String) : Prop :=
  st = "pending" ∨ st = "ready" ∨ st = "error"

instance (st : String) : Decidable (storedStatus st) := by
  unfold storedStatus; infer_instance

/-- The arrow artifact key determined by a fingerprint (the shape of
`s3_key_for_query`, factored through the stored hash). -/
def keyOfHash (h : String) : String := S3_BUCKET ++ "/" ++ h ++ "." ++ "arrow"

/-- Well-formedness of one job row relative to the `queries` table: its
status is a stored status, its S3 key is the arrow key of its fingerprint,
and its query row exists with a matching hash. -/
def JobWF (reg : Registry) (j : JobRow) : Prop :=
  storedStatus j.status ∧
  j.s3_key = keyOfHash j.query_hash ∧
  ∃ q ∈ reg.queries, q.query_hash = j.query_hash

/-- The inductive system invariant (named to avoid the Mathlib class). -/
structure SysInv (s : SysState) : Prop where
  queries_wf : ∀ q ∈ s.reg.queries, q.query_hash = hash_query q.sql
  jobs_wf : ∀ j ∈ s.reg.jobs, JobWF s.reg j
  ids_nodup : (s.reg.jobs.map JobRow.job_id).Nodup
  queue_wf : ∀ it ∈ s.queue, ∃ j ∈ s.reg.jobs,
      j.job_id = it.job_id ∧ j.status = "pending" ∧
      j.query_hash = hash_query it.sql
  queue_nodup : (s.queue.map WorkItem.job_id).Nodup
  store_iff : ∀ k, k ∈ s.store ↔
      ∃ j ∈ s.reg.jobs, j.status = "ready" ∧ j.s3_key = k

/-! ## Concrete scenario states (used by counterexamples and witnesses) -/

/-- The row an update writes for a matched job. -/
def updatedRow (j : JobRow) (status : String) (row_count file_size : Option Nat)
    (now : Nat) : JobRow :=
  { j with status := status, completed_at := some now,
           row_count := row_count, file_size := file_size }

/-- The empty registry. -/
def reg0 : Registry := ⟨[], []⟩

/-- The job row created by the first submission of `SELECT 1`. -/
def rowA : JobRow :=
  ⟨"job-a", hash_query "SELECT 1", "pending", "arrow", 0, none, none, none,
   s3_key_for_query "SELECT 1" "arrow"⟩

/-- First submission of `SELECT 1` against the empty registry. -/
def subA : SubmitResult := submit_query "SELECT 1" "job-a" 0 reg0

/-- The worker completes `job-a` successfully with a 1-row result. -/
def runA : RunResult :=
  run_query (pythonStrip "SELECT 1") "job-a" 1 (.success 1) subA.reg []

/-- Resubmission of the same SQL after `job-a` reached `ready`. -/
def subB : SubmitResult := submit_query "SELECT 1" "job-b" 2 runA.reg

/-- A ready job row (for exercising `update_job_status` on a terminal row). -/
def rowReady : JobRow :=
  ⟨"j1", "h1", "ready", "arrow", 0, some 3, some 7, some 9, keyOfHash "h1"⟩

/-- A registry holding only `rowReady`. -/
def regReady : Registry := ⟨[⟨"h1", "q1", 0⟩], [rowReady]⟩

/-- A pending job row (for exercising the startup hook on an orphan). -/
def rowPending : JobRow :=
  ⟨"j2", "h2", "pending", "arrow", 0, none, none, none, keyOfHash "h2"⟩

/-- A registry holding only the orphan `rowPending`. -/
def regPending : Registry := ⟨[⟨"h2", "q2", 0⟩], [rowPending]⟩

/-- System state after submitting `SELECT 1`. -/
def s1 : SysState := submitStep "SELECT 1" "job-a" 0 initState

/-- System state after the worker finishes that job successfully. -/
def s2 : SysState := runStep ⟨pythonStrip "SELECT 1", "job-a"⟩ 1 (.success 1) s1 []

/-! ## Basic lemmas about the registry operations -/

theorem s3_key_arrow_eq (sql : String) :
    s3_key_for_query sql "arrow" = keyOfHash (hash_query sql) := rfl

theorem update_jobs_eq (reg : Registry) (jid st : String)
    (rc fs : Option Nat) (now : Nat) :
    (reg.update_job_status jid st rc fs now).jobs =
      reg.jobs.map (fun j => if j.job_id == jid then updatedRow j st rc fs now else j) :=
  rfl

theorem update_queries_eq (reg : Registry) (jid st : String)
    (rc fs : Option Nat) (now : Nat) :
    (reg.update_job_status jid st rc fs now).queries = reg.queries := rfl

theorem updatedRow_job_id (j : JobRow) (st : String) (rc fs : Option Nat)
    (now : Nat) : (updatedRow j st rc fs now).job_id = j.job_id := rfl

theorem mem_update_of_mem_ne (reg : Registry) (jid st : String)
    (rc fs : Option Nat) (now : Nat) (j : JobRow) (hj : j ∈ reg.jobs)
    (hne : j.job_id ≠ jid) :
    j ∈ (reg.update_job_status jid st rc fs now).jobs := by
  rw [update_jobs_eq]
  have : (if j.job_id == jid then updatedRow j st rc fs now else j) = j := by
    simp [hne]
  exact this ▸ List.mem_map_of_mem _ hj

theorem mem_update_of_mem_eq (reg : Registry) (jid st : String)
    (rc fs : Option Nat) (now : Nat) (j : JobRow) (hj : j ∈ reg.jobs)
    (heq : j.job_id = jid) :
    updatedRow j st rc fs now ∈ (reg.update_job_status jid st rc fs now).jobs := by
  rw [update_jobs_eq]
  have : (if j.job_id == jid then updatedRow j st rc fs now else j) =
      updatedRow j st rc fs now := by simp [heq]
  exact this ▸ List.mem_map_of_mem _ hj

theorem mem_update_elim (reg : Registry) (jid st : String)
    (rc fs : Option Nat) (now : Nat) (j' : JobRow)
    (h : j' ∈ (reg.update_job_status jid st rc fs now).jobs) :
    ∃ j ∈ reg.jobs,
      (j.job_id = jid ∧ j' = updatedRow j st rc fs now) ∨
      (j.job_id ≠ jid ∧ j' = j) := by
  rw [update_jobs_eq] at h
  rcases List.mem_map.mp h with ⟨j, hj, hje⟩
  refine ⟨j, hj, ?_⟩
  by_cases hid : j.job_id = jid
  · left; exact ⟨hid, by simpa [hid] using hje.symm⟩
  · right; exact ⟨hid, by simpa [hid] using hje.symm⟩

theorem update_map_job_id (reg : Registry) (jid st : String)
    (rc fs : Option Nat) (now : Nat) :
    (reg.update_job_status jid st rc fs now).jobs.map JobRow.job_id =
      reg.jobs.map JobRow.job_id := by
  rw [update_jobs_eq, List.map_map]
  refine List.map_congr_left fun j _ => ?_
  by_cases hid : j.job_id = jid <;> simp [hid, updatedRow_job_id]

theorem insert_jobs_eq (reg : Registry) (jid forma sql key : String)
    (now : Nat) :
    (reg.insert_job jid forma sql key now).jobs =
      reg.jobs ++ [⟨jid, hash_query sql, "pending", forma, now, none, none,
                    none, key⟩] := by
  simp only [Registry.insert_job]

theorem insert_queries_sub (reg : Registry) (jid forma sql key : String)
    (now : Nat) (q : QueryRow) (hq : q ∈ reg.queries) :
    q ∈ (reg.insert_job jid forma sql key now).queries := by
  simp only [Registry.insert_job]
  split
  · exact hq
  · exact List.mem_append_left _ hq

theorem insert_queries_ite (reg : Registry) (jid forma sql key : String)
    (now : Nat) :
    (reg.insert_job jid forma sql key now).queries =
      if reg.queries.any (fun q => q.query_hash == hash_query sql)
      then reg.queries
      else reg.queries ++ [⟨hash_query sql, sql, now⟩] := rfl

theorem insert_queries_elim (reg : Registry) (jid forma sql key : String)
    (now : Nat) (q : QueryRow)
    (h : q ∈ (reg.insert_job jid forma sql key now).queries) :
    q ∈ reg.queries ∨ q = ⟨hash_query sql, sql, now⟩ := by
  rw [insert_queries_ite] at h
  revert h; split
  · exact fun h => Or.inl h
  · intro h
    rcases List.mem_append.mp h with h | h
    · exact Or.inl h
    · exact Or.inr (List.mem_singleton.mp h)

theorem insert_queries_hash_mem (reg : Registry) (jid forma sql key : String)
    (now : Nat) :
    ∃ q ∈ (reg.insert_job jid forma sql key now).queries,
      q.query_hash = hash_query sql := by
  rw [insert_queries_ite]
  split
  · rename_i hany
    rcases List.any_eq_true.mp hany with ⟨q, hqmem, hqh⟩
    exact ⟨q, hqmem, by simpa using hqh⟩
  · exact ⟨⟨hash_query sql, sql, now⟩,
      List.mem_append_right _ (List.mem_singleton.mpr rfl), rfl⟩

theorem get_job_some_elim (reg : Registry) (jid : String) (j : JobRow)
    (sql : String) (h : reg.get_job jid = some (j, sql)) :
    j ∈ reg.jobs ∧ j.job_id = jid ∧
      ∃ q ∈ reg.queries, q.query_hash = j.query_hash ∧ q.sql = sql := by
  unfold Registry.get_job at h
  rcases hf : reg.jobs.find? (fun x => x.job_id == jid) with _ | j0
  · rw [hf] at h; exact absurd h (by simp)
  · rw [hf] at h; dsimp only at h
    rcases hq : reg.queries.find? (fun q => q.query_hash == j0.query_hash)
      with _ | q0
    · rw [hq] at h; exact absurd h (by simp)
    · rw [hq] at h; dsimp only at h
      have hj0 : j0 = j ∧ q0.sql = sql := by
        have := h
        simp only [Option.some.injEq, Prod.mk.injEq] at this
        exact ⟨this.1, this.2⟩
      obtain ⟨rfl, hsql⟩ := hj0
      refine ⟨List.mem_of_find?_eq_some hf, ?_, q0,
        List.mem_of_find?_eq_some hq, ?_, hsql⟩
      · have := List.find?_some hf; simpa using this
      · have := List.find?_some hq; have := (by simpa using this : q0.query_hash = j0.query_hash); exact this

theorem submit_query_of_found (reg : Registry) (sqlRaw nid : String)
    (now : Nat) (jp : JobRow × String)
    (h : reg.get_job (hash_query (pythonStrip sqlRaw)) = some jp) :
    submit_query sqlRaw nid now reg = ⟨.attributeError, reg, []⟩ := by
  simp only [submit_query, h]

theorem submit_query_of_none (reg : Registry) (sqlRaw nid : String)
    (now : Nat)
    (h : reg.get_job (hash_query (pythonStrip sqlRaw)) = none) :
    submit_query sqlRaw nid now reg =
      ⟨.response "pending" "arrow" nid,
       reg.insert_job nid "arrow" (pythonStrip sqlRaw)
         (s3_key_for_query (pythonStrip sqlRaw) "arrow") now,
       [⟨pythonStrip sqlRaw, nid⟩]⟩ := by
  simp only [submit_query, h]

/-- Insertion of a fresh pending job (the effect of a cache-miss submit)
preserves the system invariant. -/
theorem sysInv_insert (s : SysState) (sql newJobId : String) (now : Nat)
    (hfresh : ∀ j ∈ s.reg.jobs, j.job_id ≠ newJobId) (hinv : SysInv s) :
    SysInv ⟨s.reg.insert_job newJobId "arrow" sql
              (s3_key_for_query sql "arrow") now,
            s.store, s.queue ++ [⟨sql, newJobId⟩]⟩ := by
  obtain ⟨hq, hj, hn, hw, hqn, hs⟩ := hinv
  have hjobs := insert_jobs_eq s.reg newJobId "arrow" sql
    (s3_key_for_query sql "arrow") now
  refine ⟨?_, ?_, ?_, ?_, ?_, ?_⟩
  · -- queries_wf
    intro q hmem
    rcases insert_queries_elim _ _ _ _ _ _ q hmem with h | rfl
    · exact hq q h
    · rfl
  · -- jobs_wf
    intro j hmem
    rw [hjobs] at hmem
    rcases List.mem_append.mp hmem with h | h
    · obtain ⟨hst, hkey, qrow, hqrow, hqh⟩ := hj j h
      exact ⟨hst, hkey, qrow, insert_queries_sub _ _ _ _ _ _ qrow hqrow, hqh⟩
    · rw [List.mem_singleton.mp h]
      refine ⟨Or.inl rfl, rfl, ?_⟩
      exact insert_queries_hash_mem s.reg newJobId "arrow" sql _ now
  · -- ids_nodup
    rw [hjobs, List.map_append]
    rw [List.nodup_append]
    refine ⟨hn, List.nodup_singleton _, ?_⟩
    intro a ha hb
    rcases List.mem_map.mp ha with ⟨j, hjm, rfl⟩
    have : j.job_id = newJobId := by simpa using hb
    exact hfresh j hjm this
  · -- queue_wf
    intro it hit
    rcases List.mem_append.mp hit with h | h
    · obtain ⟨j, hjm, hji, hjs, hjh⟩ := hw it h
      refine ⟨j, ?_, hji, hjs, hjh⟩
      rw [hjobs]; exact List.mem_append_left _ hjm
    · rw [List.mem_singleton.mp h]
      refine ⟨⟨newJobId, hash_query sql, "pending", "arrow", now, none, none,
        none, s3_key_for_query sql "arrow"⟩, ?_, rfl, rfl, rfl⟩
      rw [hjobs]
      exact List.mem_append_right _ (List.mem_singleton.mpr rfl)
  · -- queue_nodup
    rw [List.map_append, List.nodup_append]
    refine ⟨hqn, List.nodup_singleton _, ?_⟩
    intro a ha hb
    rcases List.mem_map.mp ha with ⟨it, hitm, rfl⟩
    have hane : it.job_id = newJobId := by simpa using hb
    obtain ⟨j, hjm, hji, _, _⟩ := hw it hitm
    exact hfresh j hjm (hji.symm ▸ hane)
  · -- store_iff
    intro k
    constructor
    · intro hk
      obtain ⟨j, hjm, hjr, hjk⟩ := (hs k).mp hk
      exact ⟨j, by rw [hjobs]; exact List.mem_append_left _ hjm, hjr, hjk⟩
    · rintro ⟨j, hjm, hjr, hjk⟩
      rw [hjobs] at hjm
      rcases List.mem_append.mp hjm with h | h
      · exact (hs k).mpr ⟨j, h, hjr, hjk⟩
      · rw [List.mem_singleton.mp h] at hjr
        simp at hjr

/-- A submit request preserves the system invariant. -/
theorem sysInv_submitStep (s : SysState) (sqlRaw newJobId : String)
    (now : Nat) (hfresh : ∀ j ∈ s.reg.jobs, j.job_id ≠ newJobId)
    (hinv : SysInv s) : SysInv (submitStep sqlRaw newJobId now s) := by
  unfold submitStep
  rcases hg : s.reg.get_job (hash_query (pythonStrip sqlRaw)) with _ | jp
  · rw [submit_query_of_none s.reg sqlRaw newJobId now hg]
    exact sysInv_insert s (pythonStrip sqlRaw) newJobId now hfresh hinv
  · rw [submit_query_of_found s.reg sqlRaw newJobId now jp hg]
    have h0 : s.queue ++ [] = s.queue := List.append_nil _
    dsimp only
    rw [h0]
    exact hinv

theorem jobs_wf_update (reg : Registry) (jid st : String)
    (rc fs : Option Nat) (now : Nat) (hst : storedStatus st)
    (h : ∀ j ∈ reg.jobs, JobWF reg j) :
    ∀ j ∈ (reg.update_job_status jid st rc fs now).jobs,
      JobWF (reg.update_job_status jid st rc fs now) j := by
  intro j' hmem
  obtain ⟨j, hj, hcase⟩ := mem_update_elim reg jid st rc fs now j' hmem
  obtain ⟨hstj, hkey, q, hq, hqh⟩ := h j hj
  have hq' : q ∈ (reg.update_job_status jid st rc fs now).queries := by
    rw [update_queries_eq]; exact hq
  rcases hcase with ⟨_, rfl⟩ | ⟨_, rfl⟩
  · exact ⟨hst, hkey, q, hq', hqh⟩
  · exact ⟨hstj, hkey, q, hq', hqh⟩

theorem ids_nodup_update (reg : Registry) (jid st : String)
    (rc fs : Option Nat) (now : Nat)
    (h : (reg.jobs.map JobRow.job_id).Nodup) :
    ((reg.update_job_status jid st rc fs now).jobs.map JobRow.job_id).Nodup := by
  rw [update_map_job_id]; exact h

/-- Any single worker completion preserves the system invariant. -/
theorem sysInv_runStep (s : SysState) (it : WorkItem)
    (pre post : List WorkItem) (now : Nat) (outcome : RunOutcome)
    (hq : s.queue = pre ++ it :: post) (hinv : SysInv s) :
    SysInv (runStep it now outcome s (pre ++ post)) := by
  obtain ⟨hqwf, hjwf, hnodup, hw, hqn, hs⟩ := hinv
  have hitmem : it ∈ s.queue := by
    rw [hq]; exact List.mem_append_right _ (List.mem_cons_self _ _)
  obtain ⟨j0, hj0m, hj0id, hj0p, hj0h⟩ := hw it hitmem
  have hinj := List.inj_on_of_nodup_map hnodup
  -- nodup decomposition of the queue
  have h1 : ((pre ++ it :: post).map WorkItem.job_id).Nodup := by
    rw [← hq]; exact hqn
  rw [List.map_append, List.map_cons, List.nodup_append] at h1
  obtain ⟨hnp, hncons, hdisj⟩ := h1
  have hpostn := (List.nodup_cons.mp hncons).2
  have hhead := (List.nodup_cons.mp hncons).1
  have hne : ∀ it' ∈ pre ++ post, it'.job_id ≠ it.job_id := by
    intro it' hmem heq
    rcases List.mem_append.mp hmem with hm | hm
    · exact hdisj (List.mem_map_of_mem _ hm)
        (by rw [heq]; exact List.mem_cons_self _ _)
    · exact hhead (heq ▸ List.mem_map_of_mem _ hm)
  have hrest_nodup : ((pre ++ post).map WorkItem.job_id).Nodup := by
    rw [List.map_append, List.nodup_append]
    refine ⟨hnp, hpostn, ?_⟩
    intro a ha hb
    exact hdisj ha (List.mem_cons_of_mem _ hb)
  -- the queue invariant for the remaining items
  have hqueue' : ∀ reg' : Registry,
      reg'.jobs = (s.reg.update_job_status it.job_id "ready" none none
        now).jobs ∨
      reg'.jobs = (s.reg.update_job_status it.job_id "error" none none
        now).jobs →
      ∀ it' ∈ pre ++ post, ∃ j ∈ reg'.jobs,
        j.job_id = it'.job_id ∧ j.status = "pending" ∧
        j.query_hash = hash_query it'.sql := by
    intro reg' hreg it' hmem
    have hit'q : it' ∈ s.queue := by
      rw [hq]
      rcases List.mem_append.mp hmem with hm | hm
      · exact List.mem_append_left _ hm
      · exact List.mem_append_right _ (List.mem_cons_of_mem _ hm)
    obtain ⟨j, hjm, hji, hjs, hjh⟩ := hw it' hit'q
    have hjne : j.job_id ≠ it.job_id := by
      rw [hji]; exact hne it' hmem
    rcases hreg with hreg | hreg
    · refine ⟨j, ?_, hji, hjs, hjh⟩
      rw [hreg]
      exact mem_update_of_mem_ne _ _ _ _ _ _ j hjm hjne
    · refine ⟨j, ?_, hji, hjs, hjh⟩
      rw [hreg]
      exact mem_update_of_mem_ne _ _ _ _ _ _ j hjm hjne
  cases outcome with
  | success rows =>
    dsimp only [runStep, run_query]
    refine ⟨?_, ?_, ?_, ?_, ?_, ?_⟩
    · intro q hmem
      exact hqwf q (by rw [update_queries_eq] at hmem; exact hmem)
    · exact jobs_wf_update s.reg it.job_id "ready" none none now
        (Or.inr (Or.inl rfl)) hjwf
    · exact ids_nodup_update s.reg it.job_id "ready" none none now hnodup
    · exact hqueue' _ (Or.inl rfl)
    · exact hrest_nodup
    · intro k
      have hkey : s3_key_for_query it.sql "arrow" = j0.s3_key := by
        rw [s3_key_arrow_eq, ← hj0h]
        exact ((hjwf j0 hj0m).2.1).symm
      have hmem_add : ∀ st' : List String, ∀ key : String,
          (k ∈ (if st'.contains key then st' else st' ++ [key])) ↔
          (k ∈ st' ∨ k = key) := by
        intro st' key
        split
        · rename_i hc
          have hkmem : key ∈ st' := by
            simpa using hc
          constructor
          · exact fun h => Or.inl h
          · rintro (h | rfl)
            · exact h
            · exact hkmem
        · simp [List.mem_append]
      constructor
      · intro hk
        rcases (hmem_add s.store (s3_key_for_query it.sql "arrow")).mp hk
          with hk | rfl
        · obtain ⟨j, hjm, hjr, hjk⟩ := (hs k).mp hk
          have hjne : j.job_id ≠ it.job_id := by
            intro heq
            have : j = j0 := hinj hjm hj0m (heq.trans hj0id.symm)
            rw [this, hj0p] at hjr
            exact absurd hjr (by decide)
          exact ⟨j, mem_update_of_mem_ne _ _ _ _ _ _ j hjm hjne, hjr, hjk⟩
        · refine ⟨updatedRow j0 "ready" none none now,
            mem_update_of_mem_eq _ _ _ _ _ _ j0 hj0m hj0id, rfl, ?_⟩
          show j0.s3_key = s3_key_for_query it.sql "arrow"
          exact hkey.symm
      · rintro ⟨j', hj'm, hj'r, hj'k⟩
        apply (hmem_add s.store (s3_key_for_query it.sql "arrow")).mpr
        obtain ⟨j, hjm, hcase⟩ := mem_update_elim s.reg it.job_id "ready"
          none none now j' hj'm
        rcases hcase with ⟨hid, rfl⟩ | ⟨hid, rfl⟩
        · right
          have hjj0 : j = j0 := hinj hjm hj0m (hid.trans hj0id.symm)
          rw [← hj'k]
          show j.s3_key = s3_key_for_query it.sql "arrow"
          rw [hjj0]; exact hkey.symm
        · exact Or.inl ((hs k).mpr ⟨j', hjm, hj'r, hj'k⟩)
  | execFail =>
    dsimp only [runStep, run_query]
    refine ⟨?_, ?_, ?_, ?_, ?_, ?_⟩
    · intro q hmem
      exact hqwf q (by rw [update_queries_eq] at hmem; exact hmem)
    · exact jobs_wf_update s.reg it.job_id "error" none none now
        (Or.inr (Or.inr rfl)) hjwf
    · exact ids_nodup_update s.reg it.job_id "error" none none now hnodup
    · exact hqueue' _ (Or.inr rfl)
    · exact hrest_nodup
    · intro k
      constructor
      · intro hk
        obtain ⟨j, hjm, hjr, hjk⟩ := (hs k).mp hk
        have hjne : j.job_id ≠ it.job_id := by
          intro heq
          have : j = j0 := hinj hjm hj0m (heq.trans hj0id.symm)
          rw [this, hj0p] at hjr
          exact absurd hjr (by decide)
        exact ⟨j, mem_update_of_mem_ne _ _ _ _ _ _ j hjm hjne, hjr, hjk⟩
      · rintro ⟨j', hj'm, hj'r, hj'k⟩
        obtain ⟨j, hjm, hcase⟩ := mem_update_elim s.reg it.job_id "error"
          none none now j' hj'm
        rcases hcase with ⟨hid, rfl⟩ | ⟨hid, rfl⟩
        · exact absurd hj'r (by simp [updatedRow])
        · exact (hs k).mpr ⟨j', hjm, hj'r, hj'k⟩
  | uploadFail =>
    dsimp only [runStep, run_query]
    refine ⟨?_, ?_, ?_, ?_, ?_, ?_⟩
    · intro q hmem
      exact hqwf q (by rw [update_queries_eq] at hmem; exact hmem)
    · exact jobs_wf_update s.reg it.job_id "error" none none now
        (Or.inr (Or.inr rfl)) hjwf
    · exact ids_nodup_update s.reg it.job_id "error" none none now hnodup
    · exact hqueue' _ (Or.inr rfl)
    · exact hrest_nodup
    · intro k
      constructor
      · intro hk
        obtain ⟨j, hjm, hjr, hjk⟩ := (hs k).mp hk
        have hjne : j.job_id ≠ it.job_id := by
          intro heq
          have : j = j0 := hinj hjm hj0m (heq.trans hj0id.symm)
          rw [this, hj0p] at hjr
          exact absurd hjr (by decide)
        exact ⟨j, mem_update_of_mem_ne _ _ _ _ _ _ j hjm hjne, hjr, hjk⟩
      · rintro ⟨j', hj'm, hj'r, hj'k⟩
        obtain ⟨j, hjm, hcase⟩ := mem_update_elim s.reg it.job_id "error"
          none none now j' hj'm
        rcases hcase with ⟨hid, rfl⟩ | ⟨hid, rfl⟩
        · exact absurd hj'r (by simp [updatedRow])
        · exact (hs k).mpr ⟨j', hjm, hj'r, hj'k⟩

/-- A restart preserves the system invariant (the durable state is
untouched; the volatile queue is dropped). -/
theorem sysInv_restartStep (s : SysState) (hinv : SysInv s) :
    SysInv (restartStep s) := by
  obtain ⟨hq, hj, hn, _, _, hs⟩ := hinv
  refine ⟨hq, hj, hn, ?_, List.nodup_nil, hs⟩
  intro it hit
  exact absurd hit (List.not_mem_nil it)

/-- The initial system satisfies the invariant. -/
theorem sysInv_init : SysInv initState := by
  refine ⟨?_, ?_, ?_, ?_, ?_, ?_⟩ <;> simp [initState]

/-- Every reachable system state satisfies the invariant. -/
theorem reachable_inv {s : SysState} (h : Reachable s) : SysInv s := by
  induction h with
  | init => exact sysInv_init
  | step _ hstep ih =>
    cases hstep with
    | submit sqlRaw newJobId now hfresh =>
      exact sysInv_submitStep _ sqlRaw newJobId now hfresh ih
    | run it pre post now outcome hq =>
      exact sysInv_runStep _ it pre post now outcome hq ih
    | restart => exact sysInv_restartStep _ ih

/-! ## Sanity: the embedded SHA-256 against the FIPS 180-4 test vectors -/

theorem sha256_vector_empty :
    SHA256.sha256hex (utf8 "") =
      "e3b0c44298fc1c149afbf4c8996fb92427ae41e4649b934ca495991b7852b855" := by
  decide

theorem sha256_vector_abc :
    SHA256.sha256hex (utf8 "abc") =
      "ba7816bf8f01cfea414140de5dae2223b00361a396177a9cb410ff61f20015ad" := by
  decide

/-! ## Key injectivity and reachability of the concrete states -/

theorem keyOfHash_inj {a b : String} (h : keyOfHash a = keyOfHash b) :
    a = b := by
  have hd : "flight-cache".data ++ "/".data ++ a.data ++ ".".data ++
      "arrow".data =
      "flight-cache".data ++ "/".data ++ b.data ++ ".".data ++
      "arrow".data := congrArg String.data h
  have h1 := List.append_cancel_right hd
  have h2 := List.append_cancel_right h1
  have h3 := List.append_cancel_left h2
  cases a; cases b
  exact congrArg String.mk h3

theorem reach_s1 : Reachable s1 :=
  Reachable.step Reachable.init
    (Step.submit initState "SELECT 1" "job-a" 0
      (fun j hj => absurd hj (List.not_mem_nil j)))

theorem reach_s2 : Reachable s2 :=
  Reachable.step reach_s1
    (Step.run s1 ⟨pythonStrip "SELECT 1", "job-a"⟩ [] [] 1 (.success 1) rfl)

/-! ## Per-step monotonicity of job statuses -/

/-- Across any single system step, each job row keeps its identity and its
status either stays unchanged or moves from `pending` to a terminal
status. -/
theorem step_status_mono {s t : SysState} (hstep : Step s t)
    (hinv : SysInv s) :
    ∀ j ∈ s.reg.jobs, ∃ j' ∈ t.reg.jobs, j'.job_id = j.job_id ∧
      (j'.status = j.status ∨
        (j.status = "pending" ∧
          (j'.status = "ready" ∨ j'.status = "error"))) := by
  cases hstep with
  | submit sqlRaw newJobId now hfresh =>
    intro j hj
    dsimp only [submitStep]
    rcases hg : s.reg.get_job (hash_query (pythonStrip sqlRaw)) with _ | jp
    · rw [submit_query_of_none s.reg sqlRaw newJobId now hg]
      refine ⟨j, ?_, rfl, Or.inl rfl⟩
      dsimp only
      rw [insert_jobs_eq]
      exact List.mem_append_left _ hj
    · rw [submit_query_of_found s.reg sqlRaw newJobId now jp hg]
      exact ⟨j, hj, rfl, Or.inl rfl⟩
  | run it pre post now outcome hq =>
    intro j hj
    have hitmem : it ∈ s.queue := by
      rw [hq]; exact List.mem_append_right _ (List.mem_cons_self _ _)
    obtain ⟨j0, hj0m, hj0id, hj0p, _⟩ := hinv.queue_wf it hitmem
    have hinj := List.inj_on_of_nodup_map hinv.ids_nodup
    by_cases hid : j.job_id = it.job_id
    · have hjj0 : j = j0 := hinj hj hj0m (hid.trans hj0id.symm)
      have hjp : j.status = "pending" := by rw [hjj0]; exact hj0p
      cases outcome with
      | success rows =>
        dsimp only [runStep, run_query]
        exact ⟨updatedRow j "ready" none none now,
          mem_update_of_mem_eq _ _ _ _ _ _ j hj hid, rfl,
          Or.inr ⟨hjp, Or.inl rfl⟩⟩
      | execFail =>
        dsimp only [runStep, run_query]
        exact ⟨updatedRow j "error" none none now,
          mem_update_of_mem_eq _ _ _ _ _ _ j hj hid, rfl,
          Or.inr ⟨hjp, Or.inr rfl⟩⟩
      | uploadFail =>
        dsimp only [runStep, run_query]
        exact ⟨updatedRow j "error" none none now,
          mem_update_of_mem_eq _ _ _ _ _ _ j hj hid, rfl,
          Or.inr ⟨hjp, Or.inr rfl⟩⟩
    · cases outcome with
      | success rows =>
        dsimp only [runStep, run_query]
        exact ⟨j, mem_update_of_mem_ne _ _ _ _ _ _ j hj hid, rfl, Or.inl rfl⟩
      | execFail =>
        dsimp only [runStep, run_query]
        exact ⟨j, mem_update_of_mem_ne _ _ _ _ _ _ j hj hid, rfl, Or.inl rfl⟩
      | uploadFail =>
        dsimp only [runStep, run_query]
        exact ⟨j, mem_update_of_mem_ne _ _ _ _ _ _ j hj hid, rfl, Or.inl rfl⟩
  | restart =>
    intro j hj
    exact ⟨j, hj, rfl, Or.inl rfl⟩

/-! ## Claims -/

/-- Claim C1 (code evaluated at the failing input): after one submit of
`SELECT 1` there is exactly one pending job for its fingerprint, yet a
second submit of the same SQL inserts a second pending job for the same
fingerprint and enqueues a second worker — the cache check
`registry.get_job(query_hash)` looks the fingerprint up in the `job_id`
column and never matches, so the deduplication invariant is violated. -/
theorem submit_dedup_never_hits :
    (subA.reg.jobs.filter fun j =>
        j.query_hash == fingerprint "SELECT 1" &&
        j.status == "pending").length = 1 ∧
    ((submit_query "SELECT 1" "job-b" 1 subA.reg).reg.jobs.filter fun j =>
        j.query_hash == fingerprint "SELECT 1" &&
        j.status == "pending").length = 2 ∧
    (submit_query "SELECT 1" "job-b" 1 subA.reg).enq =
      [⟨pythonStrip "SELECT 1", "job-b"⟩] := by
  decide

/-- Claim C2, counterexample: `update_job_status` against a job already in
the terminal state `ready` does not leave the row unchanged — it
overwrites the status (and `completed_at`, `row_count`, `file_size`)
unconditionally, because the implementation has no `from_state`
comparison. -/
theorem update_ignores_from_state_concrete :
    (regReady.update_job_status "j1" "error" none none 5).jobs ≠
      regReady.jobs ∧
    (regReady.update_job_status "j1" "error" none none 5).jobs.map
      JobRow.status = ["error"] := by
  decide

/-- Claim C2, amended: the registry's state update is an unconditional
`UPDATE ... WHERE job_id = ?` — any row with the given id is overwritten
with the new status, `completed_at := now` and the supplied counts,
regardless of its current state, and the operation returns nothing.  Job
statuses still never revisit a prior state across system steps, but only
because each job is updated exactly once by the worker that owns it. -/
theorem update_is_unconditional_overwrite :
    (∀ (reg : Registry) (jid st : String) (rc fs : Option Nat) (now : Nat),
      ∀ j ∈ reg.jobs, j.job_id = jid →
        updatedRow j st rc fs now ∈
          (reg.update_job_status jid st rc fs now).jobs) ∧
    (∀ s t : SysState, Step s t → SysInv s → ∀ j ∈ s.reg.jobs,
      ∃ j' ∈ t.reg.jobs, j'.job_id = j.job_id ∧
        (j'.status = j.status ∨
          (j.status = "pending" ∧
            (j'.status = "ready" ∨ j'.status = "error")))) :=
  ⟨fun reg jid st rc fs now j hj hid =>
      mem_update_of_mem_eq reg jid st rc fs now j hj hid,
   fun _ _ hstep hinv => step_status_mono hstep hinv⟩

/-- Witness for the amended Claim C2 at concrete inputs: the ready row
`rowReady` is overwritten to `error`, and across the concrete step
`s1 → s2` the pending row `rowA` moves to a terminal status. -/
theorem update_is_unconditional_overwrite_witness :
    (updatedRow rowReady "error" none none 5 ∈
      (regReady.update_job_status "j1" "error" none none 5).jobs) ∧
    (∃ j' ∈ s2.reg.jobs, j'.job_id = rowA.job_id ∧
      (j'.status = rowA.status ∨
        (rowA.status = "pending" ∧
          (j'.status = "ready" ∨ j'.status = "error")))) :=
  ⟨update_is_unconditional_overwrite.1 regReady "j1" "error" none none 5
      rowReady (by decide) rfl,
   update_is_unconditional_overwrite.2 s1 s2
      (Step.run s1 ⟨pythonStrip "SELECT 1", "job-a"⟩ [] [] 1 (.success 1) rfl)
      (reachable_inv reach_s1) rowA (by decide)⟩

/-- Claim C3, counterexample: the fingerprint the server computes is not
SHA-256 of the input with only ASCII whitespace trimmed — Python's
`str.strip()` also removes U+00A0 (no-break space), so the two
computations disagree on `" SELECT 1"`. -/
theorem fingerprint_not_ascii_trim :
    fingerprint " SELECT 1" ≠ fingerprintSpec " SELECT 1" := by
  decide

/-- Claim C3, amended: the fingerprint is the lowercase-hex SHA-256 of the
UTF-8 bytes of the SQL with *Unicode* whitespace (Python `str.strip()`)
trimmed from both ends, and no other canonicalization: edge whitespace is
ignored while interior whitespace and letter case distinguish
fingerprints. -/
theorem fingerprint_characterization :
    (∀ s : String, fingerprint s = SHA256.sha256hex (utf8 (pythonStrip s))) ∧
    fingerprint "  SELECT 1\t" = fingerprint "SELECT 1" ∧
    fingerprint "SELECT  1" ≠ fingerprint "SELECT 1" ∧
    fingerprint "select 1" ≠ fingerprint "SELECT 1" :=
  ⟨fun _ => rfl, by decide, by decide, by decide⟩

/-- Claim C4 (code evaluated at the failing input): after `job-a` for
`SELECT 1` has reached `ready`, resubmitting the identical SQL does not
return the cached handle — it answers `pending` with the fresh id
`job-b`, inserts a second job row and enqueues a second worker
execution. -/
theorem resubmit_after_ready_reexecutes :
    (runA.reg.jobs.any fun j =>
        j.query_hash == fingerprint "SELECT 1" &&
        j.status == "ready") = true ∧
    subB.res = .response "pending" "arrow" "job-b" ∧
    subB.enq = [⟨pythonStrip "SELECT 1", "job-b"⟩] ∧
    subB.reg.jobs.length = 2 := by
  decide

/-- Claim C5: in every reachable system state, the arrow artifact key of a
fingerprint is present in the object store if and only if some job with
that fingerprint has reached `ready`; in particular every `ready` job's
`s3_key` names an existing artifact, and a fingerprint none of whose jobs
went beyond `error` has no artifact.  (Worker completions are modelled at
operation granularity: the upload and the `ready` mark of one
`run_query` form one step, matching the source order upload-then-mark.) -/
theorem artifact_present_iff_ready {s : SysState} (hs : Reachable s) :
    (∀ fp, keyOfHash fp ∈ s.store ↔
        ∃ j ∈ s.reg.jobs, j.query_hash = fp ∧ j.status = "ready") ∧
    (∀ j ∈ s.reg.jobs, j.status = "ready" → j.s3_key ∈ s.store) := by
  obtain inv := reachable_inv hs
  constructor
  · intro fp
    constructor
    · intro hk
      obtain ⟨j, hjm, hjr, hjk⟩ := (inv.store_iff _).mp hk
      have hkey := (inv.jobs_wf j hjm).2.1
      have hkk : keyOfHash j.query_hash = keyOfHash fp := by rw [← hkey, hjk]
      exact ⟨j, hjm, keyOfHash_inj hkk, hjr⟩
    · rintro ⟨j, hjm, rfl, hjr⟩
      exact (inv.store_iff _).mpr ⟨j, hjm, hjr, (inv.jobs_wf j hjm).2.1⟩
  · intro j hjm hjr
    exact (inv.store_iff _).mpr ⟨j, hjm, hjr, rfl⟩

/-- Witness for Claim C5 at the concrete reachable state `s2`:
the equivalence instantiated at the fingerprint of `SELECT 1`, plus the
fact that the artifact is indeed present there. -/
theorem artifact_present_iff_ready_witness :
    (keyOfHash (fingerprint "SELECT 1") ∈ s2.store ↔
      ∃ j ∈ s2.reg.jobs, j.query_hash = fingerprint "SELECT 1" ∧
        j.status = "ready") ∧
    keyOfHash (fingerprint "SELECT 1") ∈ s2.store :=
  ⟨(artifact_present_iff_ready reach_s2).1 (fingerprint "SELECT 1"),
   by decide⟩

/-- Claim C6, counterexample: on a failing execution the worker body does
mark the job `error`, but `run_query` then re-raises the exception
(`raise e`), so the exception does propagate to its caller. -/
theorem run_query_raises_concrete :
    (run_query (pythonStrip "SELECT 1") "job-a" 1 .execFail subA.reg
        []).raised = true ∧
    (run_query (pythonStrip "SELECT 1") "job-a" 1 .execFail subA.reg
        []).reg.jobs.map JobRow.status = ["error"] := by
  decide

/-- Claim C6, amended: every exception raised during execution or upload
is caught inside `run_query`, converted into an `error` transition of the
job (leaving the store untouched), and then *re-raised* to the caller;
successful runs raise nothing. -/
theorem worker_marks_error_then_reraises :
    ∀ (sql jid : String) (now : Nat) (reg : Registry) (store : List String)
      (outcome : RunOutcome),
      (outcome = .execFail ∨ outcome = .uploadFail →
        (∀ j ∈ reg.jobs, j.job_id = jid →
          updatedRow j "error" none none now ∈
            (run_query sql jid now outcome reg store).reg.jobs) ∧
        (run_query sql jid now outcome reg store).store = store ∧
        (run_query sql jid now outcome reg store).raised = true) ∧
      (∀ rows, (run_query sql jid now (.success rows) reg store).raised =
        false) := by
  intro sql jid now reg store outcome
  constructor
  · rintro (rfl | rfl) <;>
      exact ⟨fun j hj hid => mem_update_of_mem_eq _ _ _ _ _ _ j hj hid,
        rfl, rfl⟩
  · intro rows; rfl

/-- Witness for the amended Claim C6 at concrete inputs. -/
theorem worker_marks_error_then_reraises_witness :
    (run_query (pythonStrip "SELECT 1") "job-a" 1 RunOutcome.execFail
        subA.reg []).raised = true ∧
    updatedRow rowA "error" none none 1 ∈
      (run_query (pythonStrip "SELECT 1") "job-a" 1 RunOutcome.execFail
        subA.reg []).reg.jobs :=
  ⟨((worker_marks_error_then_reraises (pythonStrip "SELECT 1") "job-a" 1
      subA.reg [] .execFail).1 (Or.inl rfl)).2.2,
   ((worker_marks_error_then_reraises (pythonStrip "SELECT 1") "job-a" 1
      subA.reg [] .execFail).1 (Or.inl rfl)).1 rowA (by decide) rfl⟩

/-- Claim C7, counterexample: the startup hook leaves a registry holding a
pending job exactly as it found it — the orphan stays `pending` and no
job is transitioned to `error`. -/
theorem startup_leaves_orphan_pending :
    ((lifespan_startup regPending).jobs.filter fun j =>
        j.status == "pending").length = 1 ∧
    ((lifespan_startup regPending).jobs.filter fun j =>
        j.status == "error").length = 0 := by
  decide

/-- Claim C7, amended: `main.lifespan` only constructs the executor and
the registry handle at startup; it performs no reconciliation — every job
row, including `pending`/`running` orphans, is preserved unchanged (there
is no `recovered_orphan` transition anywhere; the schema has no
`error_code` column to record one). -/
theorem startup_preserves_registry :
    ∀ reg : Registry, lifespan_startup reg = reg ∧
      (∀ j ∈ reg.jobs, j.status = "pending" →
        ∃ j' ∈ (lifespan_startup reg).jobs, j' = j ∧
          j'.status = "pending") := by
  intro reg
  exact ⟨rfl, fun j hj hp => ⟨j, hj, rfl, hp⟩⟩

/-- Witness for the amended Claim C7 at the concrete orphan registry. -/
theorem startup_preserves_registry_witness :
    lifespan_startup regPending = regPending ∧
    ∃ j' ∈ (lifespan_startup regPending).jobs, j' = rowPending ∧
      j'.status = "pending" :=
  ⟨(startup_preserves_registry regPending).1,
   (startup_preserves_registry regPending).2 rowPending (by decide) rfl⟩

/-- Claim C8, counterexample: a successful 1-row execution leaves the
`ready` row with `row_count = NULL` and `file_size = NULL` — the worker
calls `update_job_status(job_id, "ready")` without the counts. -/
theorem ready_row_count_null_concrete :
    runA.reg.jobs.map (fun j =>
      (j.status, j.row_count, j.file_size, j.completed_at)) =
      [("ready", none, none, some 1)] := by
  decide

/-- Claim C8, amended: on every `ready` transition the row's
`completed_at` is set to the update time, but `row_count` and `file_size`
are overwritten with `NULL` — the accumulated counts are not recorded. -/
theorem ready_transition_nulls_counts :
    ∀ (sql jid : String) (now rows : Nat) (reg : Registry)
      (store : List String), ∀ j ∈ reg.jobs, j.job_id = jid →
      updatedRow j "ready" none none now ∈
        (run_query sql jid now (.success rows) reg store).reg.jobs ∧
      (updatedRow j "ready" none none now).status = "ready" ∧
      (updatedRow j "ready" none none now).row_count = none ∧
      (updatedRow j "ready" none none now).file_size = none ∧
      (updatedRow j "ready" none none now).completed_at = some now := by
  intro sql jid now rows reg store j hj hid
  exact ⟨mem_update_of_mem_eq _ _ _ _ _ _ j hj hid, rfl, rfl, rfl, rfl⟩

/-- Witness for the amended Claim C8 at concrete inputs. -/
theorem ready_transition_nulls_counts_witness :
    updatedRow rowA "ready" none none 1 ∈ runA.reg.jobs ∧
    (updatedRow rowA "ready" none none 1).status = "ready" ∧
    (updatedRow rowA "ready" none none 1).row_count = none ∧
    (updatedRow rowA "ready" none none 1).file_size = none ∧
    (updatedRow rowA "ready" none none 1).completed_at = some 1 :=
  ready_transition_nulls_counts (pythonStrip "SELECT 1") "job-a" 1 1 subA.reg
    [] rowA (by decide) rfl

/-- Claim C9: the result endpoint fails exactly when the job is not
servable — 404 when the registry lookup finds nothing, 400 when the job's
state is not `ready`, and for a `ready` job it streams the object at the
job's arrow key, which is present in the store in every reachable
state. -/
theorem result_endpoint_spec {s : SysState} (hs : Reachable s)
    (jid : String) :
    (s.reg.get_job jid = none →
      get_query_result s.reg jid = .notFound404) ∧
    (∀ (j : JobRow) (sql : String), s.reg.get_job jid = some (j, sql) →
      j.status ≠ "ready" → get_query_result s.reg jid = .notReady400) ∧
    (∀ (j : JobRow) (sql : String), s.reg.get_job jid = some (j, sql) →
      j.status = "ready" →
      get_query_result s.reg jid = .stream (s3_key_for_query sql "arrow") ∧
      s3_key_for_query sql "arrow" ∈ s.store) := by
  obtain inv := reachable_inv hs
  refine ⟨?_, ?_, ?_⟩
  · intro h
    simp [get_query_result, h]
  · intro j sql h hnr
    simp [get_query_result, h, hnr]
  · intro j sql h hr
    constructor
    · simp [get_query_result, h, hr]
    · obtain ⟨hjm, hjid, q, hqm, hqh, hqsql⟩ :=
        get_job_some_elim s.reg jid j sql h
      have h1 : hash_query sql = j.query_hash := by
        rw [← hqsql, ← hqh]
        exact (inv.queries_wf q hqm).symm
      have h2 : s3_key_for_query sql "arrow" = j.s3_key := by
        rw [s3_key_arrow_eq, h1]
        exact ((inv.jobs_wf j hjm).2.1).symm
      rw [h2]
      exact (inv.store_iff _).mpr ⟨j, hjm, hr, rfl⟩

/-- Witness for Claim C9 at the concrete reachable state `s2`: the result
of the completed job `job-a` is streamed from a key present in the
store. -/
theorem result_endpoint_spec_witness :
    get_query_result s2.reg "job-a" =
      .stream (s3_key_for_query "SELECT 1" "arrow") ∧
    s3_key_for_query "SELECT 1" "arrow" ∈ s2.store :=
  (result_endpoint_spec reach_s2 "job-a").2.2
    (updatedRow rowA "ready" none none 1) "SELECT 1" (by decide) rfl

/-- Claim C10: no job is ever recorded as `running` — in every reachable
state every stored status is `pending`, `ready` or `error`; the status
endpoint can therefore never answer `running`; and a worker's single
registry update moves its job directly to a terminal status. -/
theorem no_running_status {s : SysState} (hs : Reachable s) :
    (∀ j ∈ s.reg.jobs, storedStatus j.status ∧ j.status ≠ "running") ∧
    (∀ jid st f i, get_query_status s.reg jid = .ok st f i →
      st = "pending" ∨ st = "ready" ∨ st = "error") ∧
    (∀ (sql jid : String) (now : Nat) (outcome : RunOutcome)
      (reg : Registry) (store : List String),
      ∀ j ∈ (run_query sql jid now outcome reg store).reg.jobs,
        j.job_id = jid → j.status = "ready" ∨ j.status = "error") := by
  obtain inv := reachable_inv hs
  refine ⟨?_, ?_, ?_⟩
  · intro j hjm
    have hst := (inv.jobs_wf j hjm).1
    refine ⟨hst, ?_⟩
    rcases hst with h | h | h <;> rw [h] <;> decide
  · intro jid st f i h
    unfold get_query_status at h
    rcases hg : s.reg.get_job jid with _ | ⟨j, sql⟩
    · rw [hg] at h; exact absurd h (by simp)
    · rw [hg] at h; dsimp only at h
      have hst : st = j.status := by
        have := h
        simp only [StatusResponse.ok.injEq] at this
        exact this.1.symm
      obtain ⟨hjm, _, _⟩ := get_job_some_elim s.reg jid j sql hg
      rw [hst]
      exact (inv.jobs_wf j hjm).1
  · intro sql jid now outcome reg store j hjm hid
    cases outcome with
    | success rows =>
      dsimp only [run_query] at hjm
      obtain ⟨j1, hj1, hcase⟩ :=
        mem_update_elim reg jid "ready" none none now j hjm
      rcases hcase with ⟨_, rfl⟩ | ⟨hne, rfl⟩
      · exact Or.inl rfl
      · exact absurd hid hne
    | execFail =>
      dsimp only [run_query] at hjm
      obtain ⟨j1, hj1, hcase⟩ :=
        mem_update_elim reg jid "error" none none now j hjm
      rcases hcase with ⟨_, rfl⟩ | ⟨hne, rfl⟩
      · exact Or.inr rfl
      · exact absurd hid hne
    | uploadFail =>
      dsimp only [run_query] at hjm
      obtain ⟨j1, hj1, hcase⟩ :=
        mem_update_elim reg jid "error" none none now j hjm
      rcases hcase with ⟨_, rfl⟩ | ⟨hne, rfl⟩
      · exact Or.inr rfl
      · exact absurd hid hne

/-- Witness for Claim C10 at the concrete reachable state `s2` and its
completed job row. -/
theorem no_running_status_witness :
    storedStatus (updatedRow rowA "ready" none none 1).status ∧
    (updatedRow rowA "ready" none none 1).status ≠ "running" :=
  (no_running_status reach_s2).1 (updatedRow rowA "ready" none none 1)
    (by decide)
